import Mathlib

/-
Verification of the tryl_sdk Go client library's batching-and-retry
delivery pipeline, as a shallow embedding in Lean.

Sources embedded here:
  - errors.go      : APIError, NetworkError, retryability classification
  - retry.go       : retryer.do, retryer.calculateDelay, retryer.isRetryable
  - batch.go       : Batcher.Add, Batcher.Flush, Batcher.run, Batcher.sendBatch
  - client.go      : Client.Log (retry wrapper around doLog)
  - event.go       : Event, EventResponse, batchResponse, batchResultError

Modelling conventions:
  - Go machine integers are Int (HTTP status codes never overflow here).
  - Go float64 delay arithmetic is modelled over the rationals; the jitter
    random value rand.Float64()*2-1 is an explicit parameter.
  - Go channels used as single-shot result sinks are modelled by sink
    identifiers (Nat); the effect of a function on sinks is recorded as an
    explicit trace of send/close actions.
  - The external network call (transport / Client.LogBatch result) is a
    parameter of the functions that consume it.
-/

namespace TrylSDK

/-! ## Error model (errors.go) -/

/-- APIError (errors.go lines 42-52): an error response from the API. -/
structure APIError where
  httpStatus : Int
  code : String
  message : String
  requestId : String := ""
deriving DecidableEq

/-- NetworkError (errors.go lines 139-143).  Its `Err` field is an opaque
transport-level cause (never one of the SDK's own error types); all the SDK
ever asks of it is whether it exposes a `Temporary() bool` method and, if so,
what that method returns, so the cause is modelled by those two facts. -/
structure NetworkError where
  op : String
  causeHasTemporary : Bool
  causeTemporary : Bool
deriving DecidableEq

/-- The Go `error` values constructed and inspected by the SDK's core:
API errors, network errors, client-side validation errors, the two context
errors, `fmt.Errorf("...: %w", inner)` wrappers (which unwrap to `inner`),
and plain `errors.New` messages (which do not unwrap). -/
inductive GoError where
  | api (e : APIError)
  | network (e : NetworkError)
  | validationErr (field message : String)
  | canceled
  | deadlineExceeded
  | wrapped (msg : String) (inner : GoError)
  | simple (msg : String)
deriving DecidableEq

/-- `errors.As(err, &apiErr)`: walk the Unwrap chain looking for an
`*APIError`.  A `NetworkError`'s cause is an opaque transport error, so the
chain does not continue into it. -/
def GoError.asAPI : GoError → Option APIError
  | .api e => some e
  | .wrapped _ inner => inner.asAPI
  | _ => none

/-- `errors.As(err, &netErr)`: walk the Unwrap chain looking for a
`*NetworkError`. -/
def GoError.asNetwork : GoError → Option NetworkError
  | .network e => some e
  | .wrapped _ inner => inner.asNetwork
  | _ => none

/-- APIError.IsRetryable (errors.go lines 82-84). -/
def APIError.IsRetryable (e : APIError) : Bool :=
  e.httpStatus ≥ 500 || e.httpStatus == 429

/-- NetworkError.IsTemporary (errors.go lines 154-160): true unless the
underlying cause exposes `Temporary()` and that method reports false. -/
def NetworkError.IsTemporary (e : NetworkError) : Bool :=
  if e.causeHasTemporary then e.causeTemporary else true

/-- retryer.isRetryable (retry.go lines 85-101).  The final two source
branches (context errors, default) both yield false. -/
def isRetryable (err : GoError) : Bool :=
  match err.asAPI with
  | some apiErr => apiErr.IsRetryable
  | none =>
    match err.asNetwork with
    | some netErr => netErr.IsTemporary
    | none => false

/-! ## Retry executor (retry.go) -/

/-- RetryConfig (config file lines 119-140), with durations as rationals. -/
structure RetryConfig where
  maxAttempts : Nat
  baseDelay : ℚ
  maxDelay : ℚ
  multiplier : ℚ
  jitterFactor : ℚ
deriving DecidableEq

/-- retryer.calculateDelay (retry.go lines 69-82); `u` is the value of
`rand.Float64()*2 - 1`, which lies in [-1, 1). -/
def calculateDelay (cfg : RetryConfig) (u : ℚ) (attempt : Nat) : ℚ :=
  let d := cfg.baseDelay * cfg.multiplier ^ attempt
  let d := if d > cfg.maxDelay then cfg.maxDelay else d
  if cfg.jitterFactor > 0 then d + d * cfg.jitterFactor * u else d

/-- The cancellation context seen by one `do` invocation: `errBefore i` is
the value of `ctx.Err()` at the check before attempt `i` (`none` = context
still alive); `waitErr i` is `some e` when the context fires (with
`ctx.Err() = e`) during the backoff wait that follows attempt `i`. -/
structure CtxModel where
  errBefore : Nat → Option GoError
  waitErr : Nat → Option GoError

/-- The value returned by retryer.do, one constructor per return site:
success, the two `fmt.Errorf("context cancelled...")` wrappers, a terminal
error returned as-is, and `fmt.Errorf("max retries exceeded: %w", lastErr)`
(whose argument is `none` only in the degenerate MaxAttempts = 0 case where
`lastErr` is still nil). -/
inductive DoOutcome where
  | ok
  | ctxCancelled (inner : GoError)
  | ctxCancelledDuringWait (inner : GoError)
  | terminal (err : GoError)
  | maxRetriesExceeded (lastErr : Option GoError)
deriving DecidableEq

/-- A run of retryer.do: its outcome, how many times the operation was
invoked, the backoff delays that were actually waited out, and the final
state of the operation closure. -/
structure DoResult (σ : Type) where
  outcome : DoOutcome
  opCalls : Nat
  delays : List ℚ
  state : σ
deriving DecidableEq

/-- retryer.do (retry.go lines 38-66), one recursive step per loop
iteration.  `attempt` is the loop counter, `remaining + attempt` equals
MaxAttempts, `lastErr` is the `lastErr` variable, and the operation is a
closure threading its captured state `σ`.  The wait branch is taken exactly
when `attempt < MaxAttempts-1`, i.e. when `remaining ≥ 1` after this
attempt; a delay is recorded only when the wait completes (a context firing
during the wait aborts it). -/
def doLoop (cfg : RetryConfig) (op : Nat → σ → σ × Option GoError)
    (ctx : CtxModel) (u : Nat → ℚ) :
    Nat → Nat → Option GoError → σ → DoResult σ
  | _, 0, lastErr, s => ⟨.maxRetriesExceeded lastErr, 0, [], s⟩
  | attempt, remaining + 1, _, s =>
    match ctx.errBefore attempt with
    | some e => ⟨.ctxCancelled e, 0, [], s⟩
    | none =>
      match op attempt s with
      | (s', none) => ⟨.ok, 1, [], s'⟩
      | (s', some err) =>
        if isRetryable err then
          if remaining = 0 then ⟨.maxRetriesExceeded (some err), 1, [], s'⟩
          else
            match ctx.waitErr attempt with
            | some e => ⟨.ctxCancelledDuringWait e, 1, [], s'⟩
            | none =>
              let rest := doLoop cfg op ctx u (attempt + 1) remaining (some err) s'
              ⟨rest.outcome, rest.opCalls + 1,
                calculateDelay cfg (u attempt) attempt :: rest.delays, rest.state⟩
        else ⟨.terminal err, 1, [], s'⟩

/-- retryer.do from its entry point: attempt 0, all MaxAttempts remaining,
`lastErr = nil`, initial closure state `s0`. -/
def doRun (cfg : RetryConfig) (op : Nat → σ → σ × Option GoError)
    (ctx : CtxModel) (u : Nat → ℚ) (s0 : σ) : DoResult σ :=
  doLoop cfg op ctx u 0 cfg.maxAttempts none s0

/-- A stateless operation (one whose closure state is irrelevant), giving
only the per-attempt error result. -/
def statelessOp (f : Nat → Option GoError) : Nat → Unit → Unit × Option GoError :=
  fun i _ => ((), f i)

/-- retryer.do applied to a stateless operation. -/
def retryerDo (cfg : RetryConfig) (f : Nat → Option GoError)
    (ctx : CtxModel) (u : Nat → ℚ) : DoResult Unit :=
  doRun cfg (statelessOp f) ctx u ()

/-- A context that never fires. -/
def ctxNever : CtxModel := ⟨fun _ => none, fun _ => none⟩

/-! ## Event and batch wire types (event.go) -/

/-- Event (event.go lines 10-24); json.RawMessage metadata kept as a
string.  The batching core never inspects these fields. -/
structure Event where
  userId : String
  action : String
  actorId : String := ""
  targetType : String := ""
  targetId : String := ""
  metadata : String := ""
deriving DecidableEq

/-- EventResponse (event.go lines 79-84); time.Time as integer ticks. -/
structure EventResponse where
  id : String
  timestamp : Int
deriving DecidableEq

/-- batchResultError (event.go lines 178-182): a per-item rejection in a
batch response.  Note it carries no HTTP status field. -/
structure batchResultError where
  index : Int
  code : String
  message : String
deriving DecidableEq

/-- batchResponse (event.go lines 172-175). -/
structure batchResponse where
  results : List EventResponse
  errors : List batchResultError
deriving DecidableEq

/-- AsyncResult (client.go): outcome of an async log operation. -/
structure AsyncResult where
  response : Option EventResponse
  error : Option GoError
deriving DecidableEq

/-! ## Batcher (batch.go) -/

/-- pendingEvent (batch.go lines 11-16): an event together with its result
channel, here a sink identifier.  The `index` field is assigned inside
sendBatch and equals the queue position, so it is not stored separately. -/
structure PendingEvent where
  event : Event
  sink : Nat
deriving DecidableEq

/-- The part of BatchConfig that sendBatch consults (config file lines
153-170): the batch size bound and whether an OnError callback is set. -/
structure BatchConfig where
  maxBatchSize : Nat
  hasOnError : Bool
deriving DecidableEq

/-- One observable action on a result sink: sending a value or closing. -/
inductive SinkAct where
  | send (sink : Nat) (r : AsyncResult)
  | close (sink : Nat)
deriving DecidableEq

/-- The trace produced by resolving an ordered list of (sink, result)
pairs the way batch.go does: for each pair in order, send the result on the
sink, then close the sink. -/
def mkTrace (ps : List (Nat × AsyncResult)) : List SinkAct :=
  ps.flatMap fun p => [.send p.1 p.2, .close p.1]

/-- The errorMap of sendBatch (batch.go lines 196-203): a Go map built by
iterating resp.Errors and inserting an `&APIError{HTTPStatus: 400, ...}`
under each error's Index; a later entry with the same Index overwrites an
earlier one.  `errorMapLookup es k` is the map's value at key `k`. -/
def errorMapLookup (es : List batchResultError) (k : Int) : Option APIError :=
  es.foldl (fun acc e => if e.index = k then some ⟨400, e.code, e.message, ""⟩ else acc) none

/-- The result delivered to position `i` of a batch on the success path of
sendBatch (batch.go lines 205-214): the errorMap entry for `i` if present,
else the i-th entry of resp.Results if `i` is within its length, else a
"missing response for event" error.  It is a function of `i` and the
response only. -/
def resolveAt (resp : batchResponse) (i : Nat) : AsyncResult :=
  match errorMapLookup resp.errors i with
  | some apiErr => ⟨none, some (.api apiErr)⟩
  | none =>
    match resp.results[i]? with
    | some r => ⟨some r, none⟩
    | none => ⟨none, some (.simple "missing response for event")⟩

/-- A full run of sendBatch: the sink actions it performs, the OnError
callback invocations it makes (argument list and error), and its return
value. -/
structure SendBatchRun where
  trace : List SinkAct
  callbackCalls : List (List Event × GoError)
  ret : Option GoError
deriving DecidableEq

/-- Batcher.sendBatch (batch.go lines 163-217).  `netResult` is what the
retry-wrapped network call `b.client.LogBatch(ctx, events)` returned.  An
empty batch returns immediately.  On error, every submission is resolved
with that error and the OnError callback (when configured) is invoked once
with the full ordered event list; on success each position is resolved per
`resolveAt`.  (Lines 188-194 also build a `resultMap` from resp.Results,
but that map is never read afterwards, so it has no observable effect.) -/
def sendBatch (cfg : BatchConfig) (batch : List PendingEvent)
    (netResult : Except GoError batchResponse) : SendBatchRun :=
  if batch = [] then ⟨[], [], none⟩
  else
    match netResult with
    | .error err =>
        ⟨mkTrace (batch.map fun pe => (pe.sink, ⟨none, some err⟩)),
         if cfg.hasOnError then [(batch.map (·.event), err)] else [],
         some err⟩
    | .ok resp =>
        ⟨mkTrace (batch.enum.map fun p => (p.2.sink, resolveAt resp p.1)),
         [],
         none⟩

/-- The select taken by Batcher.Add after the stopped-flag check (batch.go
lines 70-75): either the enqueue wins or `ctx.Done()` wins.  Which one is a
scheduling fact, so it is a parameter. -/
inductive AddSelect where
  | enqueued
  | ctxDone (ctxErr : GoError)
deriving DecidableEq

/-- A run of Batcher.Add: the sink actions performed and whether the
submission reached the queue. -/
structure AddRun where
  trace : List SinkAct
  wasEnqueued : Bool
deriving DecidableEq

/-- Batcher.Add (batch.go lines 60-76).  If the batcher is already stopped,
the sink gets a "batcher is stopped" error and is closed.  Otherwise the
select either enqueues the submission (sink untouched, ownership passes to
the background loop) or, when the caller's context fires first, resolves
the sink with ctx.Err() and closes it. -/
def addGo (stopped : Bool) (sel : AddSelect) (pe : PendingEvent) : AddRun :=
  if stopped then
    ⟨[.send pe.sink ⟨none, some (.simple "batcher is stopped")⟩, .close pe.sink], false⟩
  else
    match sel with
    | .enqueued => ⟨[], true⟩
    | .ctxDone e => ⟨[.send pe.sink ⟨none, some e⟩, .close pe.sink], false⟩

/-- A run of Batcher.Flush: its return value, the batches it handed to
sendBatch in order, and the queued submissions it never drained. -/
structure FlushRun where
  ret : Option GoError
  sent : List (List PendingEvent)
  remaining : List PendingEvent
deriving DecidableEq

/-- The loop of Batcher.Flush (batch.go lines 82-98).  `net b` is the
return value of `sendBatch` for batch `b` (the network result being a
function of the batch for one flush call).  Receives from the pending
channel are FIFO, so the queue is a list consumed from the head.  When an
accumulated batch reaches MaxBatchSize it is sent; a send error is returned
at once, leaving the rest of the queue untouched; when the queue is empty
the final partial batch, if any, is sent and its result returned. -/
def flushLoop (maxB : Nat) (net : List PendingEvent → Option GoError) :
    List PendingEvent → List PendingEvent → FlushRun
  | [], acc =>
    if acc = [] then ⟨none, [], []⟩ else ⟨net acc, [acc], []⟩
  | pe :: rest, acc =>
    let acc' := acc ++ [pe]
    if maxB ≤ acc'.length then
      match net acc' with
      | some e => ⟨some e, [acc'], rest⟩
      | none =>
        let r := flushLoop maxB net rest []
        ⟨r.ret, acc' :: r.sent, r.remaining⟩
    else flushLoop maxB net rest acc'

/-- Batcher.Flush (batch.go lines 79-99): the drain loop started with an
empty accumulator. -/
def flushGo (maxB : Nat) (net : List PendingEvent → Option GoError)
    (queue : List PendingEvent) : FlushRun :=
  flushLoop maxB net queue []

/-- The three stimuli the background loop reacts to (batch.go lines
130-158): a submission arriving, the flush ticker firing, and the stop
signal (carrying whatever is still in the pending queue at that moment). -/
inductive RunEvent where
  | arrival (pe : PendingEvent)
  | tick
  | stop (queue : List PendingEvent)
deriving DecidableEq

/-- One iteration of Batcher.run's select (batch.go lines 130-158),
returning the new accumulator and the batches handed to sendBatch by this
iteration.  An arrival appends to the accumulator and sends it when it
reaches MaxBatchSize; a tick sends a non-empty accumulator; the stop signal
drains the entire remaining queue into the accumulator (with no size
chunking) and sends the result if non-empty. -/
def runStep (maxB : Nat) (acc : List PendingEvent) :
    RunEvent → List PendingEvent × List (List PendingEvent)
  | .arrival pe =>
    let acc' := acc ++ [pe]
    if maxB ≤ acc'.length then ([], [acc']) else (acc', [])
  | .tick =>
    if acc = [] then (acc, []) else ([], [acc])
  | .stop queue =>
    let finalBatch := acc ++ queue
    ([], if finalBatch = [] then [] else [finalBatch])

/-- Batcher.run over a sequence of stimuli: the concatenated list of all
batches handed to sendBatch.  A stop event terminates the loop, so stimuli
after it are ignored. -/
def runTrace (maxB : Nat) : List RunEvent → List PendingEvent → List (List PendingEvent)
  | [], _ => []
  | .arrival pe :: rest, acc =>
    let s := runStep maxB acc (.arrival pe)
    s.2 ++ runTrace maxB rest s.1
  | .tick :: rest, acc =>
    let s := runStep maxB acc .tick
    s.2 ++ runTrace maxB rest s.1
  | .stop queue :: _, acc => (runStep maxB acc (.stop queue)).2

/-! ## Client.Log (client.go lines 85-103) -/

/-- The closure passed by Client.Log to retryer.do, with its captured
`(resp, lastErr)` state.  `attempts i` is what `c.doLog(ctx, event)`
returns on its i-th invocation.  On failure the closure records the error
in `lastErr` and returns it; on success it records the response and returns
nil — note it does not reset `lastErr`. -/
def logOp (attempts : Nat → Except GoError EventResponse) :
    Nat → Option EventResponse × Option GoError →
    (Option EventResponse × Option GoError) × Option GoError
  | i, (resp, lastErr) =>
    match attempts i with
    | .error e => ((resp, some e), some e)
    | .ok r => ((some r, lastErr), none)

/-- The Go error value retryer.do returns for a non-ok outcome. -/
def outcomeErr : DoOutcome → GoError
  | .ok => .simple "unreachable"
  | .ctxCancelled e => .wrapped "context cancelled" e
  | .ctxCancelledDuringWait e => .wrapped "context cancelled while waiting for retry" e
  | .terminal e => e
  | .maxRetriesExceeded (some e) => .wrapped "max retries exceeded" e
  | .maxRetriesExceeded none => .simple "max retries exceeded: nil"

/-- Client.Log (client.go lines 85-103): run the doLog closure through
retryer.do; if do failed return (nil, err); otherwise return the recorded
response together with the still-unreset `lastErr`. -/
def logGo (cfg : RetryConfig) (attempts : Nat → Except GoError EventResponse)
    (ctx : CtxModel) (u : Nat → ℚ) : Option EventResponse × Option GoError :=
  let run := doRun cfg (logOp attempts) ctx u (none, none)
  match run.outcome with
  | .ok => (run.state.1, run.state.2)
  | out => (none, some (outcomeErr out))

/-! ## Trace projections -/

/-- The actions of a trace that touch sink `s`, in order. -/
def sinkActsOn (tr : List SinkAct) (s : Nat) : List SinkAct :=
  tr.filter fun a => match a with | .send s' _ => s' = s | .close s' => s' = s

/-- The values delivered on sink `s` by a trace, in order. -/
def sinkSends (tr : List SinkAct) (s : Nat) : List AsyncResult :=
  tr.filterMap fun a =>
    match a with
    | .send s' r => if s' = s then some r else none
    | .close _ => none

/-- Sink `s` receives exactly one value and is closed right after it. -/
def resolvedOnce (tr : List SinkAct) (s : Nat) : Prop :=
  ∃ r, sinkActsOn tr s = [.send s r, .close s]

/-- Attempt `i` of a retryer.do run "fails but continues": the context is
alive at the pre-attempt check, the operation returns a retryable error,
and the backoff wait after the attempt completes without the context
firing. -/
def retryFailStep (f : Nat → Option GoError) (ctx : CtxModel) (i : Nat) : Prop :=
  ctx.errBefore i = none ∧ ctx.waitErr i = none ∧
    ∃ e, f i = some e ∧ isRetryable e = true

/-! ## Helper lemmas: traces -/

theorem sinkActsOn_mkTrace_of_not_mem (ps : List (Nat × AsyncResult)) (s : Nat)
    (h : s ∉ ps.map Prod.fst) : sinkActsOn (mkTrace ps) s = [] := by
  induction ps with
  | nil => rfl
  | cons q ps ih =>
    rw [List.map_cons, List.mem_cons, not_or] at h
    have hne : ¬ (q.1 = s) := fun hc => h.1 hc.symm
    simp only [mkTrace, List.flatMap_cons, sinkActsOn, List.filter_append,
      List.filter_cons, List.filter_nil]
    rw [if_neg (by simpa using hne), if_neg (by simpa using hne)]
    simpa [sinkActsOn, mkTrace] using ih h.2

theorem sinkActsOn_mkTrace (ps : List (Nat × AsyncResult))
    (hnd : (ps.map Prod.fst).Nodup) (p : Nat × AsyncResult) (hp : p ∈ ps) :
    sinkActsOn (mkTrace ps) p.1 = [.send p.1 p.2, .close p.1] := by
  induction ps with
  | nil => cases hp
  | cons q ps ih =>
    rw [List.map_cons, List.nodup_cons] at hnd
    rcases List.mem_cons.mp hp with rfl | hp
    · simp only [mkTrace, List.flatMap_cons, sinkActsOn, List.filter_append,
        List.filter_cons, List.filter_nil]
      rw [if_pos (by simp), if_pos (by simp)]
      simpa [sinkActsOn, mkTrace] using sinkActsOn_mkTrace_of_not_mem ps p.1 hnd.1
    · have hne : ¬ (q.1 = p.1) := fun hc => hnd.1 (hc ▸ List.mem_map_of_mem Prod.fst hp)
      simp only [mkTrace, List.flatMap_cons, sinkActsOn, List.filter_append,
        List.filter_cons, List.filter_nil]
      rw [if_neg (by simpa using hne), if_neg (by simpa using hne)]
      simpa [sinkActsOn, mkTrace] using ih hnd.2 hp

theorem sinkSends_mkTrace_of_not_mem (ps : List (Nat × AsyncResult)) (s : Nat)
    (h : s ∉ ps.map Prod.fst) : sinkSends (mkTrace ps) s = [] := by
  induction ps with
  | nil => rfl
  | cons q ps ih =>
    rw [List.map_cons, List.mem_cons, not_or] at h
    have hne : ¬ (q.1 = s) := fun hc => h.1 hc.symm
    simp only [mkTrace, List.flatMap_cons, sinkSends, List.filterMap_append,
      List.filterMap_cons]
    rw [if_neg hne]
    simpa [sinkSends, mkTrace] using ih h.2

theorem sinkSends_mkTrace (ps : List (Nat × AsyncResult))
    (hnd : (ps.map Prod.fst).Nodup) (p : Nat × AsyncResult) (hp : p ∈ ps) :
    sinkSends (mkTrace ps) p.1 = [p.2] := by
  induction ps with
  | nil => cases hp
  | cons q ps ih =>
    rw [List.map_cons, List.nodup_cons] at hnd
    rcases List.mem_cons.mp hp with rfl | hp
    · simpa [sinkSends, mkTrace, List.filterMap_append, List.filterMap_cons] using
        sinkSends_mkTrace_of_not_mem ps p.1 hnd.1
    · have hne : ¬ (q.1 = p.1) := fun hc => hnd.1 (hc ▸ List.mem_map_of_mem Prod.fst hp)
      have hrest := ih hnd.2 hp
      simp only [mkTrace, List.flatMap_cons, sinkSends, List.filterMap_append,
        List.filterMap_cons]
      rw [if_neg hne]
      simpa [sinkSends, mkTrace] using hrest

/-! ## Helper lemmas: the sendBatch errorMap -/

theorem errorMapLookup_foldl_const (k : Int) :
    ∀ (es : List batchResultError) (acc : Option APIError),
      (∀ e ∈ es, e.index ≠ k) →
      es.foldl (fun acc e => if e.index = k then some ⟨400, e.code, e.message, ""⟩ else acc) acc
        = acc := by
  intro es
  induction es with
  | nil => intro acc _; rfl
  | cons e es ih =>
    intro acc h
    rw [List.foldl_cons, if_neg (h e (List.mem_cons_self e es))]
    exact ih acc (fun x hx => h x (List.mem_cons_of_mem e hx))

theorem errorMapLookup_of_not_mem (es : List batchResultError) (k : Int)
    (h : ∀ e ∈ es, e.index ≠ k) : errorMapLookup es k = none :=
  errorMapLookup_foldl_const k es none h

theorem errorMapLookup_foldl_some (k : Int) (a : APIError) :
    ∀ (es : List batchResultError) (acc : Option APIError),
      es.foldl (fun acc e => if e.index = k then some ⟨400, e.code, e.message, ""⟩ else acc) acc
        = some a →
      (∃ e ∈ es, e.index = k ∧ a = ⟨400, e.code, e.message, ""⟩) ∨ acc = some a := by
  intro es
  induction es with
  | nil => intro acc hacc; exact Or.inr hacc
  | cons e es ih =>
    intro acc hacc
    rw [List.foldl_cons] at hacc
    rcases ih _ hacc with ⟨e', he', hk, ha⟩ | hstep
    · exact Or.inl ⟨e', List.mem_cons_of_mem e he', hk, ha⟩
    · by_cases hidx : e.index = k
      · rw [if_pos hidx] at hstep
        exact Or.inl ⟨e, List.mem_cons_self e es, hidx, (Option.some_inj.mp hstep).symm⟩
      · rw [if_neg hidx] at hstep
        exact Or.inr hstep

theorem errorMapLookup_some (es : List batchResultError) (k : Int) (a : APIError)
    (h : errorMapLookup es k = some a) :
    ∃ e ∈ es, e.index = k ∧ a = ⟨400, e.code, e.message, ""⟩ := by
  rcases errorMapLookup_foldl_some k a es none h with hgood | hbad
  · exact hgood
  · cases hbad

theorem errorMapLookup_foldl_isSome (k : Int) :
    ∀ (es : List batchResultError) (acc : Option APIError),
      ((∃ e ∈ es, e.index = k) ∨ ∃ a, acc = some a) →
      ∃ a, es.foldl
        (fun acc e => if e.index = k then some ⟨400, e.code, e.message, ""⟩ else acc) acc
          = some a := by
  intro es
  induction es with
  | nil =>
    intro acc hacc
    rcases hacc with ⟨e, he, _⟩ | hsome
    · cases he
    · exact hsome
  | cons e es ih =>
    intro acc hacc
    rw [List.foldl_cons]
    by_cases hidx : e.index = k
    · exact ih _ (Or.inr ⟨_, by rw [if_pos hidx]⟩)
    · apply ih
      rcases hacc with ⟨e', he', hk⟩ | hsome
      · rcases List.mem_cons.mp he' with rfl | he'
        · exact absurd hk hidx
        · exact Or.inl ⟨e', he', hk⟩
      · exact Or.inr (by rw [if_neg hidx]; exact hsome)

theorem errorMapLookup_isSome (es : List batchResultError) (k : Int)
    (h : ∃ e ∈ es, e.index = k) : ∃ a, errorMapLookup es k = some a :=
  errorMapLookup_foldl_isSome k es none (Or.inl h)

/-! ## Helper lemmas: the two sendBatch resolution traces -/

theorem sendBatch_err_pairs_fst (batch : List PendingEvent) (r : AsyncResult) :
    ((batch.map fun pe => (pe.sink, r)).map Prod.fst) = batch.map (·.sink) := by
  rw [List.map_map]; rfl

theorem sendBatch_ok_pairs_fst (batch : List PendingEvent) (resp : batchResponse) :
    ((batch.enum.map fun p => (p.2.sink, resolveAt resp p.1)).map Prod.fst)
      = batch.map (·.sink) := by
  rw [List.map_map]
  have h1 : (Prod.fst ∘ fun p : Nat × PendingEvent => (p.2.sink, resolveAt resp p.1))
      = ((·.sink) ∘ Prod.snd) := rfl
  rw [h1, ← List.map_map, List.enum_map_snd]

theorem sendBatch_ok_pairs_mem (batch : List PendingEvent) (resp : batchResponse)
    (i : Nat) (hi : i < batch.length) :
    (batch[i].sink, resolveAt resp i)
      ∈ batch.enum.map fun p => (p.2.sink, resolveAt resp p.1) := by
  have hlen : i < (batch.enum.map fun p => (p.2.sink, resolveAt resp p.1)).length := by
    simpa using hi
  have hval : (batch.enum.map fun p => (p.2.sink, resolveAt resp p.1))[i]
      = (batch[i].sink, resolveAt resp i) := by
    simp [List.getElem_enum]
  exact hval ▸ List.getElem_mem hlen

/-! ## Claim theorems -/

/-- C1: for every batch sent by the Batcher and every position `i` in it,
the submission at position `i` is resolved with exactly the value
`resolveAt resp i`, which is: the (400-wrapped) response error whose index
field equals `i` when one exists, else the i-th entry of the response's
results list when `i` is within its length, else a "missing response"
error.  `resolveAt` is a function of the position and the response alone,
so the outcome never depends on the event's content: duplicate-content
submissions at different positions each receive their own positional
result. -/
theorem c1_positional_resolution (cfg : BatchConfig) (batch : List PendingEvent)
    (resp : batchResponse) (i : Nat) (hi : i < batch.length)
    (hnd : (batch.map (·.sink)).Nodup) :
    sinkSends (sendBatch cfg batch (.ok resp)).trace batch[i].sink = [resolveAt resp i]
    ∧ (∀ a, errorMapLookup resp.errors (i : Int) = some a →
        resolveAt resp i = ⟨none, some (.api a)⟩
        ∧ ∃ e ∈ resp.errors, e.index = (i : Int) ∧ a = ⟨400, e.code, e.message, ""⟩)
    ∧ ((∃ e ∈ resp.errors, e.index = (i : Int)) →
        ∃ a, errorMapLookup resp.errors (i : Int) = some a)
    ∧ ((∀ e ∈ resp.errors, e.index ≠ (i : Int)) → ∀ hr : i < resp.results.length,
        resolveAt resp i = ⟨some resp.results[i], none⟩)
    ∧ ((∀ e ∈ resp.errors, e.index ≠ (i : Int)) → resp.results.length ≤ i →
        resolveAt resp i = ⟨none, some (.simple "missing response for event")⟩) := by
  have hne : batch ≠ [] := by
    intro hb; rw [hb] at hi; cases hi
  refine ⟨?_, ?_, ?_, ?_, ?_⟩
  · unfold sendBatch
    rw [if_neg hne]
    exact sinkSends_mkTrace _ ((sendBatch_ok_pairs_fst batch resp).symm ▸ hnd)
      (batch[i].sink, resolveAt resp i) (sendBatch_ok_pairs_mem batch resp i hi)
  · intro a ha
    refine ⟨?_, errorMapLookup_some _ _ _ ha⟩
    unfold resolveAt
    rw [ha]
  · exact errorMapLookup_isSome resp.errors i
  · intro hno hr
    unfold resolveAt
    rw [errorMapLookup_of_not_mem _ _ hno, List.getElem?_eq_getElem hr]
  · intro hno hr
    unfold resolveAt
    rw [errorMapLookup_of_not_mem _ _ hno, List.getElem?_eq_none hr]

/-- C1 witness: the spec's regression scenario.  Three submissions with
events {u1,a1}, {u2,a1}, {u1,a1} (first and third identical) in one batch
and server results [r0, r1, r2] in order: position 0 gets r0, position 1
gets r1 and position 2 gets r2 — the duplicate-content submissions receive
distinct positional results. -/
theorem c1_positional_resolution_witness :
    sinkSends (sendBatch ⟨100, false⟩
        [⟨⟨"u1", "a1", "", "", "", ""⟩, 10⟩, ⟨⟨"u2", "a1", "", "", "", ""⟩, 11⟩,
         ⟨⟨"u1", "a1", "", "", "", ""⟩, 12⟩]
        (.ok ⟨[⟨"r0", 0⟩, ⟨"r1", 1⟩, ⟨"r2", 2⟩], []⟩)).trace 10
      = [⟨some ⟨"r0", 0⟩, none⟩]
    ∧ sinkSends (sendBatch ⟨100, false⟩
        [⟨⟨"u1", "a1", "", "", "", ""⟩, 10⟩, ⟨⟨"u2", "a1", "", "", "", ""⟩, 11⟩,
         ⟨⟨"u1", "a1", "", "", "", ""⟩, 12⟩]
        (.ok ⟨[⟨"r0", 0⟩, ⟨"r1", 1⟩, ⟨"r2", 2⟩], []⟩)).trace 11
      = [⟨some ⟨"r1", 1⟩, none⟩]
    ∧ sinkSends (sendBatch ⟨100, false⟩
        [⟨⟨"u1", "a1", "", "", "", ""⟩, 10⟩, ⟨⟨"u2", "a1", "", "", "", ""⟩, 11⟩,
         ⟨⟨"u1", "a1", "", "", "", ""⟩, 12⟩]
        (.ok ⟨[⟨"r0", 0⟩, ⟨"r1", 1⟩, ⟨"r2", 2⟩], []⟩)).trace 12
      = [⟨some ⟨"r2", 2⟩, none⟩] :=
  ⟨(c1_positional_resolution ⟨100, false⟩ _ _ 0 (by decide) (by decide)).1,
   (c1_positional_resolution ⟨100, false⟩ _ _ 1 (by decide) (by decide)).1,
   (c1_positional_resolution ⟨100, false⟩ _ _ 2 (by decide) (by decide)).1⟩

/-- C10: whenever the server's batch response reports a per-item rejection
at index `i`, the submission at position `i` is resolved with an APIError
whose HTTPStatus is the hard-coded constant 400 (the per-item wire format
carries no status field at all), and by the retryability classification
that error is never retryable. -/
theorem c10_rejection_status (resp : batchResponse) (i : Nat)
    (h : ∃ e ∈ resp.errors, e.index = (i : Int)) :
    ∃ a : APIError, resolveAt resp i = ⟨none, some (.api a)⟩
      ∧ a.httpStatus = 400
      ∧ a.IsRetryable = false
      ∧ isRetryable (.api a) = false := by
  obtain ⟨a, ha⟩ := errorMapLookup_isSome resp.errors i h
  obtain ⟨e, _, _, hae⟩ := errorMapLookup_some _ _ _ ha
  refine ⟨a, ?_, ?_, ?_, ?_⟩
  · unfold resolveAt
    rw [ha]
  · rw [hae]
  · rw [hae]; rfl
  · rw [hae]; rfl

/-- C10 witness: a response rejecting index 1 with a validation code — the
delivered error is an APIError with HTTPStatus 400 and is not retryable. -/
theorem c10_rejection_status_witness :
    ∃ a : APIError,
      resolveAt ⟨[], [⟨1, "validation_error", "bad user_id"⟩]⟩ 1 = ⟨none, some (.api a)⟩
      ∧ a.httpStatus = 400
      ∧ a.IsRetryable = false
      ∧ isRetryable (.api a) = false :=
  c10_rejection_status ⟨[], [⟨1, "validation_error", "bad user_id"⟩]⟩ 1 (by decide)

/-- C6: when the retry-wrapped batch send fails entirely, every submission
in the batch is resolved with that same single error; the OnError callback,
when configured, is invoked exactly once with the full ordered event list
and that error (and not at all when unconfigured); and on a completed send
the callback is never invoked. -/
theorem c6_total_failure (cfg : BatchConfig) (batch : List PendingEvent) (err : GoError)
    (resp : batchResponse) (hne : batch ≠ [])
    (hnd : (batch.map (·.sink)).Nodup) :
    (∀ pe ∈ batch, sinkSends (sendBatch cfg batch (.error err)).trace pe.sink
        = [⟨none, some err⟩])
    ∧ (sendBatch cfg batch (.error err)).callbackCalls
        = (if cfg.hasOnError then [(batch.map (·.event), err)] else [])
    ∧ (sendBatch cfg batch (.error err)).ret = some err
    ∧ (sendBatch cfg batch (.ok resp)).callbackCalls = [] := by
  refine ⟨?_, ?_, ?_, ?_⟩
  · intro pe hpe
    unfold sendBatch
    rw [if_neg hne]
    exact sinkSends_mkTrace _
      ((sendBatch_err_pairs_fst batch ⟨none, some err⟩).symm ▸ hnd)
      (pe.sink, ⟨none, some err⟩)
      (List.mem_map_of_mem (fun pe => (pe.sink, (⟨none, some err⟩ : AsyncResult))) hpe)
  · unfold sendBatch
    rw [if_neg hne]
  · unfold sendBatch
    rw [if_neg hne]
  · unfold sendBatch
    rw [if_neg hne]

/-- C6 witness: a three-event batch whose retry-wrapped send fails with one
network error — all three sinks receive that same error, and the configured
callback fires exactly once with the three original events in order. -/
theorem c6_total_failure_witness :
    (∀ pe ∈ ([⟨⟨"u1", "a1", "", "", "", ""⟩, 10⟩, ⟨⟨"u2", "a1", "", "", "", ""⟩, 11⟩,
        ⟨⟨"u1", "a1", "", "", "", ""⟩, 12⟩] : List PendingEvent),
      sinkSends (sendBatch ⟨100, true⟩
          [⟨⟨"u1", "a1", "", "", "", ""⟩, 10⟩, ⟨⟨"u2", "a1", "", "", "", ""⟩, 11⟩,
           ⟨⟨"u1", "a1", "", "", "", ""⟩, 12⟩]
          (.error (.network ⟨"request", false, false⟩))).trace pe.sink
        = [⟨none, some (.network ⟨"request", false, false⟩)⟩])
    ∧ (sendBatch ⟨100, true⟩
        [⟨⟨"u1", "a1", "", "", "", ""⟩, 10⟩, ⟨⟨"u2", "a1", "", "", "", ""⟩, 11⟩,
         ⟨⟨"u1", "a1", "", "", "", ""⟩, 12⟩]
        (.error (.network ⟨"request", false, false⟩))).callbackCalls
      = [([⟨"u1", "a1", "", "", "", ""⟩, ⟨"u2", "a1", "", "", "", ""⟩,
          ⟨"u1", "a1", "", "", "", ""⟩], .network ⟨"request", false, false⟩)] := by
  have h := c6_total_failure ⟨100, true⟩
    [⟨⟨"u1", "a1", "", "", "", ""⟩, 10⟩, ⟨⟨"u2", "a1", "", "", "", ""⟩, 11⟩,
     ⟨⟨"u1", "a1", "", "", "", ""⟩, 12⟩]
    (.network ⟨"request", false, false⟩) ⟨[], []⟩ (by decide) (by decide)
  exact ⟨h.1, by rw [h.2.1]; rfl⟩

/-- C2: on each resolution path, a result sink handed to the Batcher via
Add receives exactly one AsyncResult and is then closed: the
immediate "batcher is stopped" rejection after shutdown begins, the
cancellation resolution when the caller's context ends before the enqueue
succeeds, and — for every sink of a batch — both the total-send-failure
path and the per-position completed-send path of sendBatch.  On the
successful enqueue path Add performs no sink action at all (the sink then
belongs to the background loop, which resolves it through sendBatch). -/
theorem c2_exactly_once (stopped : Bool) (sel : AddSelect) (pe : PendingEvent)
    (cfg : BatchConfig) (batch : List PendingEvent)
    (netResult : Except GoError batchResponse)
    (hnd : (batch.map (·.sink)).Nodup) :
    (stopped = true → resolvedOnce (addGo stopped sel pe).trace pe.sink)
    ∧ (∀ e, stopped = false → sel = .ctxDone e →
        resolvedOnce (addGo stopped sel pe).trace pe.sink)
    ∧ (stopped = false → sel = .enqueued →
        (addGo stopped sel pe).trace = [] ∧ (addGo stopped sel pe).wasEnqueued = true)
    ∧ (∀ q ∈ batch, resolvedOnce (sendBatch cfg batch netResult).trace q.sink) := by
  refine ⟨?_, ?_, ?_, ?_⟩
  · intro hs
    subst hs
    exact ⟨⟨none, some (.simple "batcher is stopped")⟩, by
      simp [addGo, sinkActsOn]⟩
  · intro e hs hsel
    subst hs; subst hsel
    exact ⟨⟨none, some e⟩, by simp [addGo, sinkActsOn]⟩
  · intro hs hsel
    subst hs; subst hsel
    exact ⟨rfl, rfl⟩
  · intro q hq
    have hne : batch ≠ [] := List.ne_nil_of_mem hq
    cases netResult with
    | error err =>
      refine ⟨⟨none, some err⟩, ?_⟩
      unfold sendBatch
      rw [if_neg hne]
      exact sinkActsOn_mkTrace _
        ((sendBatch_err_pairs_fst batch ⟨none, some err⟩).symm ▸ hnd)
        (q.sink, ⟨none, some err⟩)
        (List.mem_map_of_mem (fun pe => (pe.sink, (⟨none, some err⟩ : AsyncResult))) hq)
    | ok resp =>
      obtain ⟨i, hi, hqi⟩ := List.getElem_of_mem hq
      refine ⟨resolveAt resp i, ?_⟩
      unfold sendBatch
      rw [if_neg hne]
      have hmem := sendBatch_ok_pairs_mem batch resp i hi
      rw [hqi] at hmem
      exact sinkActsOn_mkTrace _ ((sendBatch_ok_pairs_fst batch resp).symm ▸ hnd)
        (q.sink, resolveAt resp i) hmem

/-- C2 witness: concrete instances of all four resolution paths — a
rejected Add after stop, a context-cancelled Add, a clean enqueue, and the
sinks of a two-element batch on a failed send. -/
theorem c2_exactly_once_witness :
    resolvedOnce (addGo true .enqueued ⟨⟨"u1", "a1", "", "", "", ""⟩, 10⟩).trace 10
    ∧ resolvedOnce (addGo false (.ctxDone .canceled) ⟨⟨"u1", "a1", "", "", "", ""⟩, 10⟩).trace 10
    ∧ (addGo false .enqueued ⟨⟨"u1", "a1", "", "", "", ""⟩, 10⟩).trace = []
    ∧ (∀ q ∈ ([⟨⟨"u1", "a1", "", "", "", ""⟩, 10⟩, ⟨⟨"u2", "a1", "", "", "", ""⟩, 11⟩] :
        List PendingEvent),
        resolvedOnce (sendBatch ⟨100, false⟩
          [⟨⟨"u1", "a1", "", "", "", ""⟩, 10⟩, ⟨⟨"u2", "a1", "", "", "", ""⟩, 11⟩]
          (.error (.simple "send failed"))).trace q.sink) := by
  refine ⟨?_, ?_, ?_, ?_⟩
  · exact (c2_exactly_once true .enqueued ⟨⟨"u1", "a1", "", "", "", ""⟩, 10⟩ ⟨100, false⟩ []
      (.error (.simple "x")) (by decide)).1 rfl
  · exact (c2_exactly_once false (.ctxDone .canceled) ⟨⟨"u1", "a1", "", "", "", ""⟩, 10⟩
      ⟨100, false⟩ [] (.error (.simple "x")) (by decide)).2.1 .canceled rfl rfl
  · exact ((c2_exactly_once false .enqueued ⟨⟨"u1", "a1", "", "", "", ""⟩, 10⟩ ⟨100, false⟩ []
      (.error (.simple "x")) (by decide)).2.2.1 rfl rfl).1
  · exact (c2_exactly_once false .enqueued ⟨⟨"u1", "a1", "", "", "", ""⟩, 10⟩ ⟨100, false⟩
      [⟨⟨"u1", "a1", "", "", "", ""⟩, 10⟩, ⟨⟨"u2", "a1", "", "", "", ""⟩, 11⟩]
      (.error (.simple "send failed")) (by decide)).2.2.2

/-! ## Helper lemmas: the Flush drain loop -/

theorem flushLoop_spec (maxB : Nat) (net : List PendingEvent → Option GoError)
    (hmax : 1 ≤ maxB) :
    ∀ (queue acc : List PendingEvent), acc.length < maxB →
      (∀ b ∈ (flushLoop maxB net queue acc).sent, 1 ≤ b.length ∧ b.length ≤ maxB)
      ∧ (flushLoop maxB net queue acc).sent.flatten ++ (flushLoop maxB net queue acc).remaining
          = acc ++ queue
      ∧ (∀ b ∈ (flushLoop maxB net queue acc).sent.dropLast, net b = none)
      ∧ (flushLoop maxB net queue acc).ret
          = (match (flushLoop maxB net queue acc).sent.getLast? with
             | none => none
             | some b => net b)
      ∧ ((flushLoop maxB net queue acc).ret = none →
          (flushLoop maxB net queue acc).remaining = []) := by
  intro queue
  induction queue with
  | nil =>
    intro acc hacc
    by_cases hempty : acc = []
    · subst hempty
      simp [flushLoop]
    · rw [show flushLoop maxB net [] acc = ⟨net acc, [acc], []⟩ from by
        simp [flushLoop, hempty]]
      refine ⟨?_, by simp, by simp, by simp, fun _ => rfl⟩
      intro b hb
      rcases List.mem_singleton.mp hb with rfl
      exact ⟨List.length_pos.mpr hempty, Nat.le_of_lt hacc⟩
  | cons pe rest ih =>
    intro acc hacc
    by_cases hfull : maxB ≤ (acc ++ [pe]).length
    · cases hnet : net (acc ++ [pe]) with
      | some e =>
        rw [show flushLoop maxB net (pe :: rest) acc = ⟨some e, [acc ++ [pe]], rest⟩ from by
          rw [flushLoop]; simp only [if_pos hfull, hnet]]
        refine ⟨?_, by simp, by simp, by simp [hnet], ?_⟩
        · intro b hb
          rcases List.mem_singleton.mp hb with rfl
          constructor
          · simpa using Nat.le_add_left 1 acc.length
          · simpa using hacc
        · intro hcontra
          cases hcontra
      | none =>
        rw [show flushLoop maxB net (pe :: rest) acc
            = ⟨(flushLoop maxB net rest []).ret,
               (acc ++ [pe]) :: (flushLoop maxB net rest []).sent,
               (flushLoop maxB net rest []).remaining⟩ from by
          rw [flushLoop]; simp only [if_pos hfull, hnet]]
        obtain ⟨ihb, ihj, ihd, ihr, ihn⟩ := ih [] (Nat.lt_of_lt_of_le Nat.zero_lt_one hmax)
        refine ⟨?_, ?_, ?_, ?_, ihn⟩
        · intro b hb
          rcases List.mem_cons.mp hb with rfl | hb
          · exact ⟨by simpa using Nat.le_add_left 1 acc.length, by simpa using hacc⟩
          · exact ihb b hb
        · rw [List.flatten_cons, List.append_assoc, ihj]
          simp
        · cases hsent : (flushLoop maxB net rest []).sent with
          | nil => simp
          | cons s ss =>
            intro b hb
            rw [List.dropLast_cons₂] at hb
            rcases List.mem_cons.mp hb with rfl | hb
            · exact hnet
            · exact ihd b (by rw [hsent]; exact hb)
        · cases hsent : (flushLoop maxB net rest []).sent with
          | nil =>
            rw [hsent] at ihr
            simp only [List.getLast?_nil] at ihr
            simpa [hnet] using ihr
          | cons s ss =>
            rw [hsent] at ihr
            rw [List.getLast?_cons_cons]
            exact ihr
    · rw [show flushLoop maxB net (pe :: rest) acc = flushLoop maxB net rest (acc ++ [pe]) from by
        rw [flushLoop]; simp only [if_neg hfull]]
      have hlen : (acc ++ [pe]).length < maxB := Nat.lt_of_not_le hfull
      obtain ⟨ihb, ihj, ihd, ihr, ihn⟩ := ih (acc ++ [pe]) hlen
      refine ⟨ihb, ?_, ihd, ihr, ihn⟩
      rw [ihj, List.append_assoc]
      simp

/-! ## Helper lemmas: the background run loop -/

theorem runTrace_spec (maxB : Nat) (hmax : 1 ≤ maxB) :
    ∀ (evs : List RunEvent) (acc : List PendingEvent), acc.length < maxB →
      ∀ b ∈ runTrace maxB evs acc, 1 ≤ b.length ∧
        (b.length ≤ maxB ∨ ∃ q a2, RunEvent.stop q ∈ evs ∧ b = a2 ++ q) := by
  intro evs
  induction evs with
  | nil =>
    intro acc _ b hb
    cases hb
  | cons ev rest ih =>
    intro acc hacc b hb
    cases ev with
    | arrival pe =>
      by_cases hfull : maxB ≤ (acc ++ [pe]).length
      · have hfull' : maxB ≤ acc.length + 1 := by simpa using hfull
        rw [show runTrace maxB (.arrival pe :: rest) acc
            = [acc ++ [pe]] ++ runTrace maxB rest [] from by
          rw [runTrace]; simp [runStep, hfull']] at hb
        rcases List.mem_append.mp hb with hb | hb
        · rcases List.mem_singleton.mp hb with rfl
          exact ⟨by simpa using Nat.le_add_left 1 acc.length,
            Or.inl (by simpa using hacc)⟩
        · obtain ⟨h1, h2⟩ := ih [] (Nat.lt_of_lt_of_le Nat.zero_lt_one hmax) b hb
          refine ⟨h1, h2.imp id ?_⟩
          rintro ⟨q, a2, hq, rfl⟩
          exact ⟨q, a2, List.mem_cons_of_mem _ hq, rfl⟩
      · have hfull' : ¬ maxB ≤ acc.length + 1 := by simpa using hfull
        rw [show runTrace maxB (.arrival pe :: rest) acc
            = runTrace maxB rest (acc ++ [pe]) from by
          rw [runTrace]; simp [runStep, hfull']] at hb
        obtain ⟨h1, h2⟩ := ih (acc ++ [pe]) (Nat.lt_of_not_le hfull) b hb
        refine ⟨h1, h2.imp id ?_⟩
        rintro ⟨q, a2, hq, rfl⟩
        exact ⟨q, a2, List.mem_cons_of_mem _ hq, rfl⟩
    | tick =>
      by_cases hempty : acc = []
      · subst hempty
        rw [show runTrace maxB (RunEvent.tick :: rest) [] = runTrace maxB rest [] from by
          rw [runTrace]; simp [runStep]] at hb
        obtain ⟨h1, h2⟩ := ih [] (Nat.lt_of_lt_of_le Nat.zero_lt_one hmax) b hb
        refine ⟨h1, h2.imp id ?_⟩
        rintro ⟨q, a2, hq, rfl⟩
        exact ⟨q, a2, List.mem_cons_of_mem _ hq, rfl⟩
      · rw [show runTrace maxB (RunEvent.tick :: rest) acc
            = [acc] ++ runTrace maxB rest [] from by
          rw [runTrace]; simp [runStep, hempty]] at hb
        rcases List.mem_append.mp hb with hb | hb
        · rcases List.mem_singleton.mp hb with rfl
          exact ⟨List.length_pos.mpr hempty, Or.inl (Nat.le_of_lt hacc)⟩
        · obtain ⟨h1, h2⟩ := ih [] (Nat.lt_of_lt_of_le Nat.zero_lt_one hmax) b hb
          refine ⟨h1, h2.imp id ?_⟩
          rintro ⟨q, a2, hq, rfl⟩
          exact ⟨q, a2, List.mem_cons_of_mem _ hq, rfl⟩
    | stop queue =>
      by_cases hempty : acc ++ queue = []
      · rw [show runTrace maxB (RunEvent.stop queue :: rest) acc = [] from by
          rw [runTrace]; simp [runStep, hempty]] at hb
        cases hb
      · rw [show runTrace maxB (RunEvent.stop queue :: rest) acc = [acc ++ queue] from by
          rw [runTrace]; simp [runStep, hempty]] at hb
        rcases List.mem_singleton.mp hb with rfl
        exact ⟨List.length_pos.mpr hempty,
          Or.inr ⟨queue, acc, List.mem_cons_self _ _, rfl⟩⟩

/-- C3 counterexample: with MaxBatchSize = 1, two queued submissions, and a
send that fails on the first batch, Flush sends only the first batch and
returns its error: the second drained batch is never sent — its submission
is not in any sent batch and is still queued — contradicting the claim that
a failing batch send does not prevent the remaining drained batches from
being sent. -/
theorem c3_counterexample :
    (flushGo 1
        (fun b => if b = [⟨⟨"u1", "a1", "", "", "", ""⟩, 10⟩] then some (.simple "send failed")
          else none)
        [⟨⟨"u1", "a1", "", "", "", ""⟩, 10⟩, ⟨⟨"u2", "a1", "", "", "", ""⟩, 11⟩]).sent
      = [[⟨⟨"u1", "a1", "", "", "", ""⟩, 10⟩]]
    ∧ (flushGo 1
        (fun b => if b = [⟨⟨"u1", "a1", "", "", "", ""⟩, 10⟩] then some (.simple "send failed")
          else none)
        [⟨⟨"u1", "a1", "", "", "", ""⟩, 10⟩, ⟨⟨"u2", "a1", "", "", "", ""⟩, 11⟩]).ret
      = some (.simple "send failed")
    ∧ (flushGo 1
        (fun b => if b = [⟨⟨"u1", "a1", "", "", "", ""⟩, 10⟩] then some (.simple "send failed")
          else none)
        [⟨⟨"u1", "a1", "", "", "", ""⟩, 10⟩, ⟨⟨"u2", "a1", "", "", "", ""⟩, 11⟩]).remaining
      = [⟨⟨"u2", "a1", "", "", "", ""⟩, 11⟩]
    ∧ ∀ b ∈ (flushGo 1
        (fun b => if b = [⟨⟨"u1", "a1", "", "", "", ""⟩, 10⟩] then some (.simple "send failed")
          else none)
        [⟨⟨"u1", "a1", "", "", "", ""⟩, 10⟩, ⟨⟨"u2", "a1", "", "", "", ""⟩, 11⟩]).sent,
        ⟨⟨"u2", "a1", "", "", "", ""⟩, 11⟩ ∉ b := by
  decide

/-- C3 (amended): Flush drains the queue in FIFO order into batches of at
most MaxBatchSize and sends them in order, but stops at the first failing
batch send: it returns that first error immediately (all earlier sent
batches succeeded), leaving the not-yet-drained remainder in the queue; it
returns nil exactly when every drained batch was sent successfully, in
which case nothing remains queued. -/
theorem c3_flush_first_error (maxB : Nat) (net : List PendingEvent → Option GoError)
    (queue : List PendingEvent) (hmax : 1 ≤ maxB) :
    (∀ b ∈ (flushGo maxB net queue).sent, 1 ≤ b.length ∧ b.length ≤ maxB)
    ∧ (flushGo maxB net queue).sent.flatten ++ (flushGo maxB net queue).remaining = queue
    ∧ (∀ b ∈ (flushGo maxB net queue).sent.dropLast, net b = none)
    ∧ (flushGo maxB net queue).ret
        = (match (flushGo maxB net queue).sent.getLast? with
           | none => none
           | some b => net b)
    ∧ ((flushGo maxB net queue).ret = none → (flushGo maxB net queue).remaining = []) := by
  have h := flushLoop_spec maxB net hmax queue []
    (Nat.lt_of_lt_of_le Nat.zero_lt_one hmax)
  simpa [flushGo] using h

/-- C3 witness: two submissions, MaxBatchSize 1, all sends succeeding —
both batches are drained and sent, the return value is nil and nothing
remains queued. -/
theorem c3_flush_first_error_witness :
    (∀ b ∈ (flushGo 1 (fun _ => none)
        [⟨⟨"u1", "a1", "", "", "", ""⟩, 10⟩, ⟨⟨"u2", "a1", "", "", "", ""⟩, 11⟩]).sent,
        1 ≤ b.length ∧ b.length ≤ 1)
    ∧ (flushGo 1 (fun _ => none)
        [⟨⟨"u1", "a1", "", "", "", ""⟩, 10⟩, ⟨⟨"u2", "a1", "", "", "", ""⟩, 11⟩]).sent.flatten
        ++ (flushGo 1 (fun _ => none)
        [⟨⟨"u1", "a1", "", "", "", ""⟩, 10⟩, ⟨⟨"u2", "a1", "", "", "", ""⟩, 11⟩]).remaining
      = [⟨⟨"u1", "a1", "", "", "", ""⟩, 10⟩, ⟨⟨"u2", "a1", "", "", "", ""⟩, 11⟩]
    ∧ (∀ b ∈ (flushGo 1 (fun _ => none)
        [⟨⟨"u1", "a1", "", "", "", ""⟩, 10⟩, ⟨⟨"u2", "a1", "", "", "", ""⟩, 11⟩]).sent.dropLast,
        (fun (_ : List PendingEvent) => (none : Option GoError)) b = none)
    ∧ (flushGo 1 (fun _ => none)
        [⟨⟨"u1", "a1", "", "", "", ""⟩, 10⟩, ⟨⟨"u2", "a1", "", "", "", ""⟩, 11⟩]).ret
        = (match (flushGo 1 (fun _ => none)
            [⟨⟨"u1", "a1", "", "", "", ""⟩, 10⟩, ⟨⟨"u2", "a1", "", "", "", ""⟩, 11⟩]).sent.getLast?
           with
           | none => none
           | some b => (fun (_ : List PendingEvent) => (none : Option GoError)) b)
    ∧ ((flushGo 1 (fun _ => none)
        [⟨⟨"u1", "a1", "", "", "", ""⟩, 10⟩, ⟨⟨"u2", "a1", "", "", "", ""⟩, 11⟩]).ret = none →
        (flushGo 1 (fun _ => none)
        [⟨⟨"u1", "a1", "", "", "", ""⟩, 10⟩, ⟨⟨"u2", "a1", "", "", "", ""⟩, 11⟩]).remaining = []) :=
  c3_flush_first_error 1 (fun _ => none)
    [⟨⟨"u1", "a1", "", "", "", ""⟩, 10⟩, ⟨⟨"u2", "a1", "", "", "", ""⟩, 11⟩] (by decide)

/-- C5 counterexample: the shutdown drain inside Stop does not chunk by
MaxBatchSize.  With MaxBatchSize = 1, an empty accumulator and two
submissions still queued when the stop signal arrives, the run loop hands
sendBatch a single final batch of 2 submissions — strictly more than
MaxBatchSize — contradicting the claim that every batch handed to the
network send contains at most MaxBatchSize submissions. -/
theorem c5_counterexample :
    runTrace 1
        [.stop [⟨⟨"u1", "a1", "", "", "", ""⟩, 10⟩, ⟨⟨"u2", "a1", "", "", "", ""⟩, 11⟩]] []
      = [[⟨⟨"u1", "a1", "", "", "", ""⟩, 10⟩, ⟨⟨"u2", "a1", "", "", "", ""⟩, 11⟩]]
    ∧ ∃ b ∈ runTrace 1
        [.stop [⟨⟨"u1", "a1", "", "", "", ""⟩, 10⟩, ⟨⟨"u2", "a1", "", "", "", ""⟩, 11⟩]] [],
        ¬ b.length ≤ 1 := by
  decide

/-- C5 (amended): every batch handed to the network send is non-empty, and
every batch produced by the size trigger, the flush timer, or a manual
Flush contains at most MaxBatchSize submissions; the shutdown drain inside
Stop instead sends a single final batch consisting of the current
accumulator plus everything still queued, which may exceed MaxBatchSize. -/
theorem c5_batch_bounds (maxB : Nat) (evs : List RunEvent) (acc : List PendingEvent)
    (net : List PendingEvent → Option GoError) (queue : List PendingEvent)
    (hmax : 1 ≤ maxB) (hacc : acc.length < maxB) :
    (∀ b ∈ runTrace maxB evs acc, 1 ≤ b.length ∧
      (b.length ≤ maxB ∨ ∃ q a2, RunEvent.stop q ∈ evs ∧ b = a2 ++ q))
    ∧ (∀ b ∈ (flushGo maxB net queue).sent, 1 ≤ b.length ∧ b.length ≤ maxB) :=
  ⟨runTrace_spec maxB hmax evs acc hacc,
   (flushLoop_spec maxB net hmax queue [] (Nat.lt_of_lt_of_le Nat.zero_lt_one hmax)).1⟩

/-- C5 witness: with MaxBatchSize 2, a full trace — two arrivals (size
trigger), one more arrival plus a tick (timer trigger), then stop — and a
two-element manual flush: every emitted batch is non-empty and within the
stated bounds. -/
theorem c5_batch_bounds_witness :
    (∀ b ∈ runTrace 2
        [.arrival ⟨⟨"u1", "a1", "", "", "", ""⟩, 10⟩,
         .arrival ⟨⟨"u2", "a1", "", "", "", ""⟩, 11⟩,
         .arrival ⟨⟨"u1", "a1", "", "", "", ""⟩, 12⟩, .tick,
         .stop [⟨⟨"u2", "a1", "", "", "", ""⟩, 13⟩]] [],
      1 ≤ b.length ∧
        (b.length ≤ 2 ∨ ∃ q a2,
          RunEvent.stop q ∈
            [.arrival ⟨⟨"u1", "a1", "", "", "", ""⟩, 10⟩,
             .arrival ⟨⟨"u2", "a1", "", "", "", ""⟩, 11⟩,
             .arrival ⟨⟨"u1", "a1", "", "", "", ""⟩, 12⟩, RunEvent.tick,
             .stop [⟨⟨"u2", "a1", "", "", "", ""⟩, 13⟩]] ∧ b = a2 ++ q))
    ∧ (∀ b ∈ (flushGo 2 (fun _ => none)
        [⟨⟨"u1", "a1", "", "", "", ""⟩, 10⟩, ⟨⟨"u2", "a1", "", "", "", ""⟩, 11⟩]).sent,
        1 ≤ b.length ∧ b.length ≤ 2) :=
  c5_batch_bounds 2
    [.arrival ⟨⟨"u1", "a1", "", "", "", ""⟩, 10⟩,
     .arrival ⟨⟨"u2", "a1", "", "", "", ""⟩, 11⟩,
     .arrival ⟨⟨"u1", "a1", "", "", "", ""⟩, 12⟩, .tick,
     .stop [⟨⟨"u2", "a1", "", "", "", ""⟩, 13⟩]] []
    (fun _ => none)
    [⟨⟨"u1", "a1", "", "", "", ""⟩, 10⟩, ⟨⟨"u2", "a1", "", "", "", ""⟩, 11⟩]
    (by decide) (by decide)

/-! ## Helper lemmas: the retry loop -/

theorem doLoop_advance (cfg : RetryConfig) (f : Nat → Option GoError) (ctx : CtxModel)
    (u : Nat → ℚ) :
    ∀ (k a r : Nat) (l : Option GoError),
      (∀ j, j < k → retryFailStep f ctx (a + j)) → k < r →
      doLoop cfg (statelessOp f) ctx u a r l ()
        = ⟨(doLoop cfg (statelessOp f) ctx u (a + k) (r - k)
              (if k = 0 then l else f (a + k - 1)) ()).outcome,
           (doLoop cfg (statelessOp f) ctx u (a + k) (r - k)
              (if k = 0 then l else f (a + k - 1)) ()).opCalls + k,
           ((List.range k).map fun j => calculateDelay cfg (u (a + j)) (a + j))
             ++ (doLoop cfg (statelessOp f) ctx u (a + k) (r - k)
              (if k = 0 then l else f (a + k - 1)) ()).delays,
           ()⟩ := by
  intro k
  induction k with
  | zero =>
    intro a r l _ _
    rw [show (if (0 : Nat) = 0 then l else f (a + 0 - 1)) = l from if_pos rfl]
    simp only [Nat.sub_zero, Nat.add_zero, List.range_zero, List.map_nil, List.nil_append]
  | succ k ihk =>
    intro a r l hsteps hr
    obtain ⟨hb, hw, e, hfe, hre⟩ := hsteps 0 (Nat.succ_pos k)
    rw [Nat.add_zero] at hb hw hfe
    obtain ⟨r', rfl⟩ : ∃ r', r = r' + 1 := ⟨r - 1, by omega⟩
    have hkr : k < r' := by omega
    have hr0 : ¬ (r' = 0) := by omega
    have hstep : doLoop cfg (statelessOp f) ctx u a (r' + 1) l ()
        = ⟨(doLoop cfg (statelessOp f) ctx u (a + 1) r' (some e) ()).outcome,
           (doLoop cfg (statelessOp f) ctx u (a + 1) r' (some e) ()).opCalls + 1,
           calculateDelay cfg (u a) a
             :: (doLoop cfg (statelessOp f) ctx u (a + 1) r' (some e) ()).delays,
           (doLoop cfg (statelessOp f) ctx u (a + 1) r' (some e) ()).state⟩ := by
      rw [doLoop, hb]
      simp only [statelessOp, hfe, hre, if_true, if_neg hr0, hw]
    rw [hstep]
    have hsteps' : ∀ j, j < k → retryFailStep f ctx (a + 1 + j) := by
      intro j hj
      have h2 := hsteps (j + 1) (by omega)
      rwa [show a + (j + 1) = a + 1 + j from by omega] at h2
    rw [ihk (a + 1) r' (some e) hsteps' hkr]
    have hidx : a + 1 + k = a + (k + 1) := by omega
    have hlast : (if k = 0 then some e else f (a + 1 + k - 1))
        = f (a + (k + 1) - 1) := by
      by_cases hk : k = 0
      · subst hk
        simpa using hfe.symm
      · rw [if_neg hk]
        congr 1
        omega
    have hdelays : (calculateDelay cfg (u a) a
          :: (List.range k).map fun j => calculateDelay cfg (u (a + 1 + j)) (a + 1 + j))
        = (List.range (k + 1)).map fun j => calculateDelay cfg (u (a + j)) (a + j) := by
      rw [List.range_succ_eq_map, List.map_cons, Nat.add_zero, List.map_map]
      congr 1
      apply List.map_congr_left
      intro j _
      simp only [Function.comp]
      rw [show a + (j + 1) = a + 1 + j from by omega]
    have hrem : r' - k = r' + 1 - (k + 1) := by omega
    rw [hlast, hidx, hrem, ← hdelays]
    rfl

theorem doLoop_delays_length {σ : Type} (cfg : RetryConfig)
    (op : Nat → σ → σ × Option GoError) (ctx : CtxModel) (u : Nat → ℚ) :
    ∀ (r a : Nat) (l : Option GoError) (s : σ),
      (doLoop cfg op ctx u a r l s).delays.length ≤ r - 1 := by
  intro r
  induction r with
  | zero =>
    intro a l s
    simp [doLoop]
  | succ r ihr =>
    intro a l s
    rw [doLoop]
    cases hb : ctx.errBefore a with
    | some e => simp
    | none =>
      cases hop : op a s with
      | mk s' oe =>
        cases oe with
        | none => simp
        | some err =>
          by_cases hre : isRetryable err
          · by_cases hr0 : r = 0
            · simp [hre, hr0]
            · cases hw : ctx.waitErr a with
              | some e2 => simp [hre, hr0]
              | none =>
                simp only [hre, if_true, if_neg hr0, List.length_cons]
                have hrec := ihr (a + 1) (some err) s'
                omega
          · simp [hre]

theorem doLoop_delays_mem {σ : Type} (cfg : RetryConfig)
    (op : Nat → σ → σ × Option GoError) (ctx : CtxModel) (u : Nat → ℚ) :
    ∀ (r a : Nat) (l : Option GoError) (s : σ),
      ∀ d ∈ (doLoop cfg op ctx u a r l s).delays, ∃ i, d = calculateDelay cfg (u i) i := by
  intro r
  induction r with
  | zero =>
    intro a l s d hd
    simp [doLoop] at hd
  | succ r ihr =>
    intro a l s d hd
    rw [doLoop] at hd
    cases hb : ctx.errBefore a with
    | some e =>
      rw [hb] at hd
      simp at hd
    | none =>
      rw [hb] at hd
      cases hop : op a s with
      | mk s' oe =>
        rw [hop] at hd
        cases oe with
        | none => simp at hd
        | some err =>
          by_cases hre : isRetryable err
          · by_cases hr0 : r = 0
            · simp [hre, hr0] at hd
            · cases hw : ctx.waitErr a with
              | some e2 => simp [hre, hr0, hw] at hd
              | none =>
                simp only [hre, if_true, if_neg hr0, hw, List.mem_cons] at hd
                rcases hd with rfl | hd
                · exact ⟨a, rfl⟩
                · exact ihr (a + 1) (some err) s' d hd
          · simp [hre] at hd

theorem calculateDelay_formula (cfg : RetryConfig) (hjF : 0 ≤ cfg.jitterFactor)
    (v : ℚ) (i : Nat) :
    calculateDelay cfg v i
      = min cfg.maxDelay (cfg.baseDelay * cfg.multiplier ^ i)
        + min cfg.maxDelay (cfg.baseDelay * cfg.multiplier ^ i) * cfg.jitterFactor * v := by
  by_cases hclamp : cfg.maxDelay < cfg.baseDelay * cfg.multiplier ^ i
  · rw [min_eq_left (le_of_lt hclamp)]
    rcases eq_or_lt_of_le hjF with hz | hpos
    · simp only [calculateDelay, gt_iff_lt, hclamp, if_true, ← hz, lt_irrefl, if_false]
      ring
    · simp [calculateDelay, hclamp, hpos]
  · rw [min_eq_right (not_lt.mp hclamp)]
    rcases eq_or_lt_of_le hjF with hz | hpos
    · simp only [calculateDelay, gt_iff_lt, hclamp, if_false, ← hz, lt_irrefl]
      ring
    · simp [calculateDelay, hclamp, hpos]

theorem calculateDelay_bounds (cfg : RetryConfig)
    (hbase : 0 ≤ cfg.baseDelay) (hmaxD : 0 ≤ cfg.maxDelay) (hmult : 0 ≤ cfg.multiplier)
    (hjF0 : 0 ≤ cfg.jitterFactor) (hjF1 : cfg.jitterFactor ≤ 1)
    (v : ℚ) (hv1 : -1 ≤ v) (hv2 : v ≤ 1) (i : Nat) :
    0 ≤ calculateDelay cfg v i
    ∧ calculateDelay cfg v i ≤ cfg.maxDelay * (1 + cfg.jitterFactor) := by
  rw [calculateDelay_formula cfg hjF0 v i]
  have hm0 : 0 ≤ min cfg.maxDelay (cfg.baseDelay * cfg.multiplier ^ i) :=
    le_min hmaxD (mul_nonneg hbase (pow_nonneg hmult i))
  have hm1 : min cfg.maxDelay (cfg.baseDelay * cfg.multiplier ^ i) ≤ cfg.maxDelay :=
    min_le_left _ _
  constructor
  · nlinarith [mul_nonneg hm0 hjF0]
  · nlinarith [mul_nonneg hm0 hjF0, mul_nonneg hmaxD hjF0]

/-- C7: an error is classified retryable exactly when it is (unwraps to) an
APIError with HTTP status ≥ 500 or = 429, or (not being an APIError) a
NetworkError whose underlying cause is not explicitly marked non-temporary;
cancellation and validation errors, and every other error, are terminal —
and retryer.do returns a terminal error at attempt `k` to the caller
immediately, after exactly `k+1` operation calls, consuming no remaining
attempts. -/
theorem c7_retryable_classification (err : GoError) (cfg : RetryConfig)
    (f : Nat → Option GoError) (ctx : CtxModel) (u : Nat → ℚ) (k : Nat) (e : GoError) :
    (isRetryable err = true ↔
      (∃ a, err.asAPI = some a ∧ (500 ≤ a.httpStatus ∨ a.httpStatus = 429))
      ∨ (err.asAPI = none ∧ ∃ n, err.asNetwork = some n
          ∧ ¬ (n.causeHasTemporary = true ∧ n.causeTemporary = false)))
    ∧ isRetryable .canceled = false
    ∧ isRetryable .deadlineExceeded = false
    ∧ (∀ fld msg, isRetryable (.validationErr fld msg) = false)
    ∧ ((∀ j, j < k → retryFailStep f ctx j) → k < cfg.maxAttempts →
        ctx.errBefore k = none → f k = some e → isRetryable e = false →
        (retryerDo cfg f ctx u).outcome = .terminal e
        ∧ (retryerDo cfg f ctx u).opCalls = k + 1) := by
  refine ⟨?_, rfl, rfl, fun _ _ => rfl, ?_⟩
  · cases herr : err.asAPI with
    | some a =>
      unfold isRetryable
      rw [herr]
      simp only [APIError.IsRetryable, herr, Bool.or_eq_true, decide_eq_true_eq,
        beq_iff_eq, Option.some.injEq]
      constructor
      · intro h
        exact Or.inl ⟨a, rfl, h.imp (fun h1 => h1) (fun h2 => h2)⟩
      · rintro (⟨a', ha', hcase⟩ | ⟨hnone, _⟩)
        · cases ha'
          exact hcase.imp (fun h1 => h1) (fun h2 => h2)
        · cases hnone
    | none =>
      cases hnet : err.asNetwork with
      | some n =>
        unfold isRetryable
        rw [herr, hnet]
        obtain ⟨nop, ht, tv⟩ := n
        cases ht <;> cases tv <;>
          simp [NetworkError.IsTemporary]
      | none =>
        unfold isRetryable
        rw [herr, hnet]
        simp
  · intro hsteps hk hbk hfk hterm
    have hadv := doLoop_advance cfg f ctx u k 0 cfg.maxAttempts none
      (by intro j hj; simpa using hsteps j hj) hk
    obtain ⟨m, hm⟩ : ∃ m, cfg.maxAttempts - k = m + 1 := ⟨cfg.maxAttempts - k - 1, by omega⟩
    unfold retryerDo doRun
    rw [show (0 : Nat) + k = k from by omega] at hadv
    rw [hadv, hm, doLoop, hbk]
    constructor
    · simp [statelessOp, hfk, hterm]
    · simp only [statelessOp, hfk, hterm, Bool.false_eq_true, if_false]
      omega

/-- C7 witness: HTTP 503 is retryable; an HTTP 400 APIError, a cancellation
and a validation error are terminal; and a do run whose first attempt fails
with a temporary network error and whose second attempt returns an HTTP 400
APIError stops immediately at that terminal error after 2 of 3 allowed
attempts. -/
theorem c7_retryable_classification_witness :
    isRetryable (.api ⟨503, "internal_error", "down", ""⟩) = true
    ∧ isRetryable (.api ⟨400, "invalid_request", "bad", ""⟩) = false
    ∧ isRetryable .canceled = false
    ∧ isRetryable (.validationErr "user_id" "required") = false
    ∧ (retryerDo ⟨3, 1, 30, 2, 0⟩
        (fun i => if i = 0 then some (.network ⟨"request", true, true⟩)
          else some (.api ⟨400, "invalid_request", "bad", ""⟩))
        ctxNever (fun _ => 0)).outcome
      = .terminal (.api ⟨400, "invalid_request", "bad", ""⟩)
    ∧ (retryerDo ⟨3, 1, 30, 2, 0⟩
        (fun i => if i = 0 then some (.network ⟨"request", true, true⟩)
          else some (.api ⟨400, "invalid_request", "bad", ""⟩))
        ctxNever (fun _ => 0)).opCalls = 2 := by
  have h := c7_retryable_classification (.api ⟨503, "internal_error", "down", ""⟩)
    ⟨3, 1, 30, 2, 0⟩
    (fun i => if i = 0 then some (.network ⟨"request", true, true⟩)
      else some (.api ⟨400, "invalid_request", "bad", ""⟩))
    ctxNever (fun _ => 0) 1 (.api ⟨400, "invalid_request", "bad", ""⟩)
  have hterm := h.2.2.2.2
    (by
      intro j hj
      have hj0 : j = 0 := by omega
      subst hj0
      exact ⟨rfl, rfl, .network ⟨"request", true, true⟩, rfl, by decide⟩)
    (by decide) rfl rfl (by decide)
  exact ⟨h.1.mpr (Or.inl ⟨⟨503, "internal_error", "down", ""⟩, rfl, by decide⟩),
    by decide, by decide, by decide, hterm.1, hterm.2⟩

/-- C8: for every invocation of retryer.do — after any number `k` of
retryable failures with completed waits — (i) if the context has already
ended before attempt `k`, do returns a cancellation error having invoked
the operation only `k` times (no attempt is spent); (ii) if attempt `k`
succeeds, do returns success immediately with exactly `k+1` operation calls
and no delay after the success; (iii) if all MaxAttempts attempts fail with
retryable errors, do returns the last observed error wrapped as a "max
retries exceeded" condition after exactly MaxAttempts operation calls. -/
theorem c8_do_paths (cfg : RetryConfig) (f : Nat → Option GoError)
    (ctx : CtxModel) (u : Nat → ℚ) :
    (∀ k e, (∀ j, j < k → retryFailStep f ctx j) → k < cfg.maxAttempts →
      ctx.errBefore k = some e →
      (retryerDo cfg f ctx u).outcome = .ctxCancelled e
      ∧ (retryerDo cfg f ctx u).opCalls = k)
    ∧ (∀ k, (∀ j, j < k → retryFailStep f ctx j) → k < cfg.maxAttempts →
      ctx.errBefore k = none → f k = none →
      (retryerDo cfg f ctx u).outcome = .ok
      ∧ (retryerDo cfg f ctx u).opCalls = k + 1
      ∧ (retryerDo cfg f ctx u).delays.length = k)
    ∧ (∀ e, 1 ≤ cfg.maxAttempts →
      (∀ j, j < cfg.maxAttempts → retryFailStep f ctx j) →
      f (cfg.maxAttempts - 1) = some e →
      (retryerDo cfg f ctx u).outcome = .maxRetriesExceeded (some e)
      ∧ (retryerDo cfg f ctx u).opCalls = cfg.maxAttempts) := by
  refine ⟨?_, ?_, ?_⟩
  · intro k e hsteps hk hbk
    have hadv := doLoop_advance cfg f ctx u k 0 cfg.maxAttempts none
      (by intro j hj; simpa using hsteps j hj) hk
    obtain ⟨m, hm⟩ : ∃ m, cfg.maxAttempts - k = m + 1 := ⟨cfg.maxAttempts - k - 1, by omega⟩
    unfold retryerDo doRun
    rw [show (0 : Nat) + k = k from by omega] at hadv
    rw [hadv, hm, doLoop, hbk]
    simp
  · intro k hsteps hk hbk hfk
    have hadv := doLoop_advance cfg f ctx u k 0 cfg.maxAttempts none
      (by intro j hj; simpa using hsteps j hj) hk
    obtain ⟨m, hm⟩ : ∃ m, cfg.maxAttempts - k = m + 1 := ⟨cfg.maxAttempts - k - 1, by omega⟩
    unfold retryerDo doRun
    rw [show (0 : Nat) + k = k from by omega] at hadv
    rw [hadv, hm, doLoop, hbk]
    refine ⟨by simp [statelessOp, hfk], by simp only [statelessOp, hfk]; omega,
      by simp [statelessOp, hfk]⟩
  · intro e hpos hsteps hlast
    have hk : cfg.maxAttempts - 1 < cfg.maxAttempts := by omega
    have hadv := doLoop_advance cfg f ctx u (cfg.maxAttempts - 1) 0 cfg.maxAttempts none
      (by intro j hj; simpa using hsteps j (by omega)) hk
    obtain ⟨hbk, _, e', hfe', hre'⟩ := hsteps (cfg.maxAttempts - 1) (by omega)
    have hee : e' = e := by
      rw [hlast] at hfe'
      exact (Option.some_inj.mp hfe').symm
    subst hee
    unfold retryerDo doRun
    rw [show (0 : Nat) + (cfg.maxAttempts - 1) = cfg.maxAttempts - 1 from by omega] at hadv
    rw [show cfg.maxAttempts - (cfg.maxAttempts - 1) = 1 from by omega] at hadv
    rw [hadv, doLoop, hbk]
    have hcalls : 1 + (cfg.maxAttempts - 1) = cfg.maxAttempts := by omega
    simp [statelessOp, hlast, hre', hcalls]

/-- C8 witness: with MaxAttempts = 3 — a context dead before the first
attempt yields a cancellation with zero operation calls; a first-attempt
success returns ok after one call and no delay; three straight retryable
HTTP 500 failures yield the max-retries wrap of the last error after
exactly three calls. -/
theorem c8_do_paths_witness :
    ((retryerDo ⟨3, 1, 30, 2, 0⟩ (fun _ => some (.api ⟨500, "internal_error", "x", ""⟩))
        ⟨fun _ => some .canceled, fun _ => none⟩ (fun _ => 0)).outcome
      = .ctxCancelled .canceled
    ∧ (retryerDo ⟨3, 1, 30, 2, 0⟩ (fun _ => some (.api ⟨500, "internal_error", "x", ""⟩))
        ⟨fun _ => some .canceled, fun _ => none⟩ (fun _ => 0)).opCalls = 0)
    ∧ ((retryerDo ⟨3, 1, 30, 2, 0⟩ (fun _ => none) ctxNever (fun _ => 0)).outcome = .ok
    ∧ (retryerDo ⟨3, 1, 30, 2, 0⟩ (fun _ => none) ctxNever (fun _ => 0)).opCalls = 1
    ∧ (retryerDo ⟨3, 1, 30, 2, 0⟩ (fun _ => none) ctxNever (fun _ => 0)).delays.length = 0)
    ∧ ((retryerDo ⟨3, 1, 30, 2, 0⟩ (fun _ => some (.api ⟨500, "internal_error", "x", ""⟩))
        ctxNever (fun _ => 0)).outcome
      = .maxRetriesExceeded (some (.api ⟨500, "internal_error", "x", ""⟩))
    ∧ (retryerDo ⟨3, 1, 30, 2, 0⟩ (fun _ => some (.api ⟨500, "internal_error", "x", ""⟩))
        ctxNever (fun _ => 0)).opCalls = 3) := by
  refine ⟨?_, ?_, ?_⟩
  · exact (c8_do_paths ⟨3, 1, 30, 2, 0⟩ (fun _ => some (.api ⟨500, "internal_error", "x", ""⟩))
      ⟨fun _ => some .canceled, fun _ => none⟩ (fun _ => 0)).1 0 .canceled
      (fun j hj => absurd hj (Nat.not_lt_zero j)) (by decide) rfl
  · exact (c8_do_paths ⟨3, 1, 30, 2, 0⟩ (fun _ => none) ctxNever (fun _ => 0)).2.1 0
      (fun j hj => absurd hj (Nat.not_lt_zero j)) (by decide) rfl rfl
  · exact (c8_do_paths ⟨3, 1, 30, 2, 0⟩ (fun _ => some (.api ⟨500, "internal_error", "x", ""⟩))
      ctxNever (fun _ => 0)).2.2 (.api ⟨500, "internal_error", "x", ""⟩) (by decide)
      (fun j _ => ⟨rfl, rfl, .api ⟨500, "internal_error", "x", ""⟩, rfl, by decide⟩) rfl

/-- C9: a do invocation with MaxAttempts = N performs at most N-1
inter-attempt delays; each delay equals
min(maxDelay, baseDelay·multiplier^i) plus symmetric jitter of magnitude at
most jitterFactor times that clamped value; and — for any configuration in
the documented domain (non-negative base/max delay and multiplier, jitter
factor in [0,1], jitter draw in [-1,1]) — every delay is non-negative and
at most maxDelay·(1 + jitterFactor). -/
theorem c9_delay_bounds (cfg : RetryConfig) (f : Nat → Option GoError)
    (ctx : CtxModel) (u : Nat → ℚ)
    (hbase : 0 ≤ cfg.baseDelay) (hmaxD : 0 ≤ cfg.maxDelay) (hmult : 0 ≤ cfg.multiplier)
    (hjF0 : 0 ≤ cfg.jitterFactor) (hjF1 : cfg.jitterFactor ≤ 1)
    (hu : ∀ i, -1 ≤ u i ∧ u i ≤ 1) :
    (retryerDo cfg f ctx u).delays.length ≤ cfg.maxAttempts - 1
    ∧ (∀ d ∈ (retryerDo cfg f ctx u).delays, ∃ i, d = calculateDelay cfg (u i) i
        ∧ d = min cfg.maxDelay (cfg.baseDelay * cfg.multiplier ^ i)
            + min cfg.maxDelay (cfg.baseDelay * cfg.multiplier ^ i)
              * cfg.jitterFactor * u i)
    ∧ (∀ d ∈ (retryerDo cfg f ctx u).delays,
        0 ≤ d ∧ d ≤ cfg.maxDelay * (1 + cfg.jitterFactor)) := by
  refine ⟨doLoop_delays_length cfg (statelessOp f) ctx u cfg.maxAttempts 0 none (),
    ?_, ?_⟩
  · intro d hd
    obtain ⟨i, hi⟩ := doLoop_delays_mem cfg (statelessOp f) ctx u cfg.maxAttempts 0 none () d hd
    exact ⟨i, hi, by rw [hi]; exact calculateDelay_formula cfg hjF0 (u i) i⟩
  · intro d hd
    obtain ⟨i, hi⟩ := doLoop_delays_mem cfg (statelessOp f) ctx u cfg.maxAttempts 0 none () d hd
    rw [hi]
    exact calculateDelay_bounds cfg hbase hmaxD hmult hjF0 hjF1 (u i) (hu i).1 (hu i).2 i

/-- C9 witness: the default configuration (3 attempts, base 1s, max 30s,
multiplier 2, jitter 0.2) with a fixed jitter draw of 1/2 and an
always-failing retryable operation — the two delays performed respect the
count and value bounds. -/
theorem c9_delay_bounds_witness :
    (retryerDo ⟨3, 1, 30, 2, 1/5⟩ (fun _ => some (.api ⟨500, "internal_error", "x", ""⟩))
        ctxNever (fun _ => 1/2)).delays.length ≤ 3 - 1
    ∧ (∀ d ∈ (retryerDo ⟨3, 1, 30, 2, 1/5⟩
          (fun _ => some (.api ⟨500, "internal_error", "x", ""⟩))
          ctxNever (fun _ => 1/2)).delays,
        ∃ i, d = calculateDelay ⟨3, 1, 30, 2, 1/5⟩ ((fun _ => (1/2 : ℚ)) i) i
          ∧ d = min (30 : ℚ) (1 * 2 ^ i) + min (30 : ℚ) (1 * 2 ^ i) * (1/5) * (1/2))
    ∧ (∀ d ∈ (retryerDo ⟨3, 1, 30, 2, 1/5⟩
          (fun _ => some (.api ⟨500, "internal_error", "x", ""⟩))
          ctxNever (fun _ => 1/2)).delays,
        0 ≤ d ∧ d ≤ 30 * (1 + 1/5)) := by
  have h := c9_delay_bounds ⟨3, 1, 30, 2, 1/5⟩
    (fun _ => some (.api ⟨500, "internal_error", "x", ""⟩)) ctxNever (fun _ => 1/2)
    (by norm_num) (by norm_num) (by norm_num) (by norm_num) (by norm_num)
    (fun _ => ⟨by norm_num, by norm_num⟩)
  exact ⟨h.1, h.2.1, h.2.2⟩

/-- C4 (code bug): Client.Log's closure records every attempt's error in
`lastErr` but never resets it on success, and Log returns
`(resp, lastErr)` when the retry wrapper reports success.  Evaluated at the
failing input — MaxAttempts 3, first doLog attempt failing with a retryable
HTTP 500 APIError, second attempt succeeding with a receipt — Log returns
the receipt TOGETHER WITH the first attempt's error: both return values are
non-nil, where the claim (and Go convention, the README's usage, and the
Result contract of the spec) require the error to be nil when a receipt is
returned. -/
theorem c4_log_stale_error :
    logGo ⟨3, 1, 30, 2, 0⟩
        (fun i => if i = 0 then .error (.api ⟨500, "internal_error", "boom", ""⟩)
          else .ok ⟨"evt_1", 100⟩)
        ctxNever (fun _ => 0)
      = (some ⟨"evt_1", 100⟩, some (.api ⟨500, "internal_error", "boom", ""⟩))
    ∧ (logGo ⟨3, 1, 30, 2, 0⟩
        (fun i => if i = 0 then .error (.api ⟨500, "internal_error", "boom", ""⟩)
          else .ok ⟨"evt_1", 100⟩)
        ctxNever (fun _ => 0)).1 ≠ none
    ∧ (logGo ⟨3, 1, 30, 2, 0⟩
        (fun i => if i = 0 then .error (.api ⟨500, "internal_error", "boom", ""⟩)
          else .ok ⟨"evt_1", 100⟩)
        ctxNever (fun _ => 0)).2 ≠ none := by
  decide

end TrylSDK
